import Mathlib

/-!
Verification of the multi-client threaded record server (server.c, client.c,
common.c) against its natural-language specification.

The development shallowly embeds the data model and the operations of the
server: the fixed-width binary stores become Lean lists of records, the
command dispatcher of the client thread becomes a pure function from a
command line and a server state to a response message, a new store state and
a continue flag, and the audit-log tail becomes a pure function on the list
of log lines.  File handles, sockets and mutexes are abstracted away; the
byte-level behaviour of the fixed-width scans (including a possibly short
trailing read) is modelled separately by the `ReadChunk` file view.
-/

set_option linter.unusedVariables false

namespace ThreadedServer

/-- MAX_POKEMON from protocol.h / trainer.h: a trainer owns between 1 and 6
reference keys. -/
def MAX_POKEMON : Nat := 6

/-- Reference Record (pokemon.h).  Only the fields the server logic ever
consults are modelled: `id` is the lookup and validation key, and `name`,
`type1`, `type2` appear in the detail listing built by the
`get trainer <id>` handler.  The remaining fixed-width stat fields of the
C struct are never read by server.c and are therefore omitted. -/
structure Pokemon where
  id : Int
  name : String
  type1 : String
  type2 : String
deriving DecidableEq, Repr

/-- Mutable Record (trainer.h): key, name, the fixed array of 6 reference
key slots, and the count of used slots.  `pokemon_ids` models the whole
`int pokemon_ids[MAX_POKEMON]` array (stale slots beyond `count` included),
exactly as stored in the fixed-width record. -/
structure Trainer where
  id : Int
  name : String
  pokemon_ids : List Int
  count : Nat
deriving DecidableEq, Repr

/-- get_pokemon_by_id (server.c 125-133): linear scan of the Reference Store,
first match wins, returns found/not-found. -/
def get_pokemon_by_id : List Pokemon → Int → Option Pokemon
  | [], _ => none
  | p :: rest, i => if p.id = i then some p else get_pokemon_by_id rest i

/-- get_trainer_by_id (server.c 138-145): linear scan of the Mutable Store,
first match wins, returns found/not-found. -/
def get_trainer_by_id : List Trainer → Int → Option Trainer
  | [], _ => none
  | t :: rest, i => if t.id = i then some t else get_trainer_by_id rest i

/-- validate_pokemon_ids (server.c 150-166): every submitted reference key
must be found in the Reference Store. -/
def validate_pokemon_ids (pokedex : List Pokemon) (ids : List Int) : Bool :=
  ids.all (fun i => (get_pokemon_by_id pokedex i).isSome)

/-- The key-max scan of add_trainer_with_validation (server.c 179-184):
`max_id` starts at 0 and is raised by every strictly larger key. -/
def max_trainer_id (db : List Trainer) : Int :=
  db.foldl (fun m t => if t.id > m then t.id else m) 0

/-- strncpy(t.name, name, sizeof(t.name) - 1) into the 50-byte name field
(server.c 188): the stored name keeps at most 49 characters. -/
def strncpy_name (s : String) : String :=
  (s.data.take 49).asString

/-- add_trainer_with_validation (server.c 171-194).  Returns the store after
the call together with the C return value: -1 on a failed count check,
failed reference validation or failed write (no write happens), otherwise
the freshly assigned key.  The new record is zero-initialised, so the slots
after the submitted ids hold 0. -/
def add_trainer_with_validation (pokedex : List Pokemon) (db : List Trainer)
    (name : String) (ids : List Int) : List Trainer × Int :=
  if ids.length = 0 ∨ ids.length > MAX_POKEMON then (db, -1)
  else if ! validate_pokemon_ids pokedex ids then (db, -1)
  else
    let newId := max_trainer_id db + 1
    let t : Trainer :=
      ⟨newId, strncpy_name name, ids ++ List.replicate (MAX_POKEMON - ids.length) 0, ids.length⟩
    (db ++ [t], newId)

/-- The locate-and-rewrite scan of update_trainer_with_validation
(server.c 207-217): find the first record with the given key, overwrite its
first `ids.length` reference slots and its count in place, leave every other
record untouched; `none` when the key is absent. -/
def rewrite_first (i : Int) (ids : List Int) : List Trainer → Option (List Trainer)
  | [] => none
  | t :: rest =>
    if t.id = i then
      some ({ t with pokemon_ids := ids ++ t.pokemon_ids.drop ids.length,
                     count := ids.length } :: rest)
    else
      (rewrite_first i ids rest).map (fun db => t :: db)

/-- update_trainer_with_validation (server.c 199-219).  Returns the store
after the call and the C return value (1 success, 0 failure - bad count,
bad reference, absent key or failed write; no write happens on failure). -/
def update_trainer_with_validation (pokedex : List Pokemon) (db : List Trainer)
    (i : Int) (ids : List Int) : List Trainer × Int :=
  if ids.length = 0 ∨ ids.length > MAX_POKEMON then (db, 0)
  else if ! validate_pokemon_ids pokedex ids then (db, 0)
  else
    match rewrite_first i ids db with
    | some db2 => (db2, 1)
    | none => (db, 0)

/-- The rebuild loop of delete_trainer (server.c 232-237): copy every record
whose key differs, remember whether any record matched. -/
def delete_rebuild (i : Int) : List Trainer → List Trainer × Bool
  | [] => ([], false)
  | t :: rest =>
    let r := delete_rebuild i rest
    if t.id = i then (r.1, true) else (t :: r.1, r.2)

/-- delete_trainer (server.c 224-243): rewrite the store without the matching
records and rename the temporary file over the original; returns the new
store and the found flag. -/
def delete_trainer (db : List Trainer) (i : Int) : List Trainer × Bool :=
  delete_rebuild i db

/-- Size of the fgets line buffer of read_last_n_lines (char buf[1024] at
server.c 289): each fgets call delivers at most 1023 characters, stopping
after a newline. -/
def LOG_LINE_BUF : Nat := 1024

/-- Size of the output buffer the dispatcher hands to read_last_n_lines
(char out[4096] at server.c 385). -/
def LOG_OUT_BUF : Nat := 4096

/-- Chunking loop behind `fgets_split`.  The first argument only bounds the
number of iterations so the recursion is structural: every iteration
consumes at least one character, so the character count of the input is
always a sufficient bound and the zero case is never reached from
`fgets_split`. -/
def fgets_split_go : Nat → List Char → List (List Char)
  | _, [] => []
  | 0, _ => []
  | fuel + 1, cs => cs.take (LOG_LINE_BUF - 1) :: fgets_split_go fuel (cs.drop (LOG_LINE_BUF - 1))

/-- The buffers fgets(buf, sizeof(buf), fp) delivers for the byte sequence
of one stored log line (its trailing newline included): maximal pieces of
LOG_LINE_BUF - 1 characters until the remainder, which ends at the newline,
fits in a single call. -/
def fgets_split (cs : List Char) : List (List Char) :=
  fgets_split_go cs.length cs

/-- The sequence of buffers fgets delivers while reading the whole log
file.  Every appended entry is stored with a trailing newline
(log_request, server.c 268); an entry longer than the fgets buffer is
delivered - and therefore counted by the line-counting loop - as several
pieces. -/
def fgets_units (log : List String) : List String :=
  (log.map (fun l => (fgets_split (l.data ++ ['\n'])).map List.asString)).flatten

/-- strncat(outbuf, buf, outsz - strlen(outbuf) - 1) folded over the
delivered pieces (server.c 306-309): each piece is appended only up to the
remaining capacity of the fixed-size output buffer, and whatever does not
fit is silently dropped. -/
def strncat_fold (outsz : Nat) : List String → List Char → List Char
  | [], acc => acc
  | u :: rest, acc => strncat_fold outsz rest (acc ++ u.data.take (outsz - 1 - acc.length))

/-- read_last_n_lines (server.c 278-314): under the log lock, count the
fgets units of the file, skip max(0, units - n), and strncat-concatenate
the remaining units into the caller's LOG_OUT_BUF-byte buffer.  `none`
models the two status-0 outcomes (unopenable log file or empty log), in
which the caller shows a fixed failure line instead of entries. -/
def read_last_n_lines (log : List String) (n : Nat) : Option String :=
  if (fgets_units log).length = 0 then none
  else
    some ((strncat_fold LOG_OUT_BUF
      ((fgets_units log).drop
        (if (fgets_units log).length > n then (fgets_units log).length - n else 0))
      []).asString)

/-- Store invariant from the spec (section 3): every record owns between 1
and MAX_POKEMON references and keys are unique within the store. -/
def store_invariant (db : List Trainer) : Prop :=
  (∀ t ∈ db, 1 ≤ t.count ∧ t.count ≤ MAX_POKEMON) ∧ (db.map Trainer.id).Nodup

instance store_invariant_dec (db : List Trainer) : Decidable (store_invariant db) := by
  unfold store_invariant
  infer_instance

/-- Character class accepted as whitespace by atoi (C isspace). -/
def is_c_space (c : Char) : Bool :=
  c == ' ' || c == '\t' || c == '\n' || c == '\r' || c == '\x0b' || c == '\x0c'

/-- Value of the leading decimal-digit prefix of a character list. -/
def digits_value (cs : List Char) : Nat :=
  (cs.takeWhile Char.isDigit).foldl (fun a c => 10 * a + (c.toNat - 48)) 0

/-- C atoi, as used by the dispatcher for every numeric argument: skip
leading whitespace, optional sign, value of the digit prefix (0 when the
argument starts with no digit). -/
def atoi (s : String) : Int :=
  match s.data.dropWhile is_c_space with
  | '-' :: rest => - (digits_value rest : Int)
  | '+' :: rest => (digits_value rest : Int)
  | cs => (digits_value cs : Int)

/-- Splitting loop behind `tokenize`: strtok with delimiter " " produces the
maximal run-free tokens, in order.  `cur` holds the characters of the token
being read, most recent first. -/
def tokens_aux : List Char → List Char → List (List Char)
  | [], cur => if cur = [] then [] else [cur.reverse]
  | c :: rest, cur =>
    if c = ' ' then
      if cur = [] then tokens_aux rest []
      else cur.reverse :: tokens_aux rest []
    else tokens_aux rest (c :: cur)

/-- The tokenization of client_thread (server.c 360-367): strtok on single
spaces, at most 20 tokens kept. -/
def tokenize (s : String) : List String :=
  ((tokens_aux s.data []).map List.asString).take 20

/-- The shared state a client thread sees: the read-only Reference Store,
the Mutable Store and the audit log. -/
structure ServerState where
  pokedex : List Pokemon
  trainers : List Trainer
  log : List String
deriving Repr

/-- Response text of the `get log <n>` branch (server.c 381-390): atoi the
argument, fall back to 10 when non-positive, tail the log; a status-0 tail
is reported as the fixed failure line, otherwise the filled output buffer
is copied into the response. -/
def get_log_message (log : List String) (nstr : String) : String :=
  let n0 := atoi nstr
  let n : Int := if n0 ≤ 0 then 10 else n0
  match read_last_n_lines log n.toNat with
  | none => "Could not read log file."
  | some out => out

/-- One line of the team listing in the `get trainer <id>` detail response
(server.c 413-423): resolved references are rendered, unresolvable keys are
silently omitted. -/
def team_entry (pokedex : List Pokemon) (pid : Int) : String :=
  match get_pokemon_by_id pokedex pid with
  | some p =>
      "  - [" ++ toString p.id ++ "] " ++ p.name ++ " (" ++ p.type1 ++ "/"
        ++ (if p.type2.length ≠ 0 then p.type2 else "—") ++ ")\n"
  | none => ""

/-- The `get trainer <id>` detail response body (server.c 407-431). -/
def trainer_detail (pokedex : List Pokemon) (t : Trainer) : String :=
  "Trainer #" ++ toString t.id ++ ": " ++ t.name ++ "\nPokémon count: "
    ++ toString t.count ++ "\nPokémon Team:\n"
    ++ String.join ((t.pokemon_ids.take t.count).map (team_entry pokedex))

/-- Response text of the `get trainer` branch (server.c 393-447): with a
third argument, detail or not-found for that key; otherwise the listing of
every record in store order. -/
def get_trainer_message (st : ServerState) (args : List String) : String :=
  if args.length = 3 then
    let i := atoi (args.getD 2 "")
    match get_trainer_by_id st.trainers i with
    | none => "Trainer " ++ toString i ++ " not found."
    | some t => trainer_detail st.pokedex t
  else
    "All Trainers:\n" ++ String.join (st.trainers.map (fun t =>
      "  #" ++ toString t.id ++ " " ++ t.name ++ " (" ++ toString t.count ++ " Pokémon)\n"))

/-- The `post trainer` branch (server.c 450-472): reject more than
MAX_POKEMON reference arguments outright, otherwise atoi the arguments and
run the validated insert under the store mutex. -/
def post_trainer_exec (st : ServerState) (args : List String) : String × List Trainer :=
  let count := args.length - 3
  if count > MAX_POKEMON then
    ("Invalid command: Trainer cannot have more than " ++ toString MAX_POKEMON
       ++ " Pokémon.", st.trainers)
  else
    let ids := (args.drop 3).map atoi
    let r := add_trainer_with_validation st.pokedex st.trainers (args.getD 2 "") ids
    if r.2 < 0 then
      ("Invalid command: Failed validation (check Pokémon IDs).", r.1)
    else
      ("Trainer added successfully. ID=" ++ toString r.2, r.1)

/-- The `put trainer` branch (server.c 475-496). -/
def put_trainer_exec (st : ServerState) (args : List String) : String × List Trainer :=
  let i := atoi (args.getD 2 "")
  let count := args.length - 3
  if count > MAX_POKEMON then
    ("Invalid command: Max Pokémon = " ++ toString MAX_POKEMON ++ ".", st.trainers)
  else
    let ids := (args.drop 3).map atoi
    let r := update_trainer_with_validation st.pokedex st.trainers i ids
    if r.2 = 0 then
      ("Trainer " ++ toString i ++ " not updated.", r.1)
    else
      ("Trainer " ++ toString i ++ " updated.", r.1)

/-- The `delete trainer` branch (server.c 499-510). -/
def delete_trainer_exec (st : ServerState) (args : List String) : String × List Trainer :=
  let i := atoi (args.getD 2 "")
  let r := delete_trainer st.trainers i
  if r.2 then
    ("Trainer " ++ toString i ++ " deleted.", r.1)
  else
    ("Trainer " ++ toString i ++ " not found.", r.1)

/-- The else-if chain of client_thread for every command other than the
empty line and `exit` (server.c 381-515), in source order; the final
catch-all answers with the generic invalid-command response.  Returns the
response message and the Mutable Store after the command. -/
def exec_command (st : ServerState) (args : List String) : String × List Trainer :=
  if args.length = 3 ∧ args.headD "" = "get" ∧ args.getD 1 "" = "log" then
    (get_log_message st.log (args.getD 2 ""), st.trainers)
  else if 2 ≤ args.length ∧ args.headD "" = "get" ∧ args.getD 1 "" = "trainer" then
    (get_trainer_message st args, st.trainers)
  else if 4 ≤ args.length ∧ args.headD "" = "post" ∧ args.getD 1 "" = "trainer" then
    post_trainer_exec st args
  else if 4 ≤ args.length ∧ args.headD "" = "put" ∧ args.getD 1 "" = "trainer" then
    put_trainer_exec st args
  else if args.length = 3 ∧ args.headD "" = "delete" ∧ args.getD 1 "" = "trainer" then
    delete_trainer_exec st args
  else
    ("Invalid command.", st.trainers)

/-- One dispatch of a received, newline-trimmed command line
(server.c 356-518): the response message, the Mutable Store afterwards, and
whether the session loop continues (false exactly on the `break` of the
`exit` branch; every other branch falls through to the next receive). -/
def dispatch (st : ServerState) (line : String) : String × List Trainer × Bool :=
  match tokenize line with
  | [] => ("Empty command.", st.trainers, true)
  | a0 :: rest =>
    if a0 = "exit" then
      ("Goodbye from server.", st.trainers, false)
    else
      let r := exec_command st (a0 :: rest)
      (r.1, r.2, true)

/-- First token of a command line (the verb checked against "exit"). -/
def first_token (s : String) : Option String :=
  (tokenize s).head?

/-- Outcome of the blocking recv_line at the top of the session loop
(server.c 347): clean peer close (return 0), receive error (return < 0), or
a complete line. -/
inductive RecvResult where
  | closed
  | err
  | line (s : String)
deriving DecidableEq, Repr

/-- One iteration of the client_thread session loop (server.c 344-519):
the session stays Active exactly when the `while (running)` guard held, the
receive produced a line, and the dispatched line was not `exit`.  `sendOk`
is the outcome of the final send_all (server.c 518); its value is ignored
by the loop, which is precisely what the code does - the return value of
send_all is discarded. -/
def session_continues (running : Bool) (rv : RecvResult) (st : ServerState)
    (sendOk : Bool) : Bool :=
  if running then
    match rv with
    | RecvResult.closed => false
    | RecvResult.err => false
    | RecvResult.line s => (dispatch st s).2.2
  else false

/-- Framing loop of the receiving client: split the byte stream the server
has sent so far into the complete newline-terminated lines recv_line
(common.c 241-278) delivers; trailing bytes without a newline are not yet a
complete line and leave the client blocked in recv. -/
def complete_lines_go : List Char → List Char → List String
  | [], _cur => []
  | c :: rest, cur =>
    if c = '\n' then (cur ++ [c]).asString :: complete_lines_go rest []
    else complete_lines_go rest (cur ++ [c])

/-- Complete newline-terminated lines of a transmitted byte sequence. -/
def complete_lines (s : String) : List String :=
  complete_lines_go s.data []

/-- The response-consuming loop of send_command (client.c 116-131): read
lines, stop at the sentinel line and display everything before it; `none`
when the delivered lines are exhausted without the sentinel ever arriving -
the client then stays blocked in recv_line (or fails when the connection
drops). -/
def client_recv_displayed : List String → Option (List String)
  | [] => none
  | l :: rest =>
    if l = "[END]\n" then some []
    else (client_recv_displayed rest).map (fun ds => l :: ds)

/-- Size in bytes of the packed Trainer record (trainer.h): one int key,
50 name bytes, 6 int reference slots, one int count. -/
def TRAINER_REC_BYTES : Nat := 82

/-- Outcome of one fixed-width safe_read against the backing file: either a
whole record, or a short read of fewer than TRAINER_REC_BYTES bytes (0 at a
clean end of file).  safe_read (common.c 316-328) returns the byte count it
managed to read, so a trailing fragment of the file surfaces as a `short`
chunk, never as an error. -/
inductive ReadChunk where
  | full (t : Trainer)
  | short (n : Fin TRAINER_REC_BYTES)
deriving DecidableEq, Repr

/-- Byte-level view of a trainer file: the whole records in order followed
by the short final read (`tl` = 0 models a file whose size is an exact
multiple of the record width). -/
def file_chunks (recs : List Trainer) (tl : Fin TRAINER_REC_BYTES) : List ReadChunk :=
  recs.map ReadChunk.full ++ [ReadChunk.short tl]

/-- The find-by-key scan as it runs over the byte-level file view
(server.c 138-145): `while (safe_read(fd, &t, sizeof(t)) == sizeof(t))`
keeps scanning on whole records; any short read fails the loop guard and
the function returns not-found - the C function returns only 1 or 0. -/
def scan_find (i : Int) : List ReadChunk → Option Trainer
  | [] => none
  | ReadChunk.full t :: rest => if t.id = i then some t else scan_find i rest
  | ReadChunk.short _ :: _ => none

/-- The key-max scan of add_trainer_with_validation over the byte-level
file view (server.c 182-184): same loop guard, so a short read ends the
scan with the maximum seen so far. -/
def scan_max : List ReadChunk → Int → Int
  | [], m => m
  | ReadChunk.full t :: rest, m => scan_max rest (if t.id > m then t.id else m)
  | ReadChunk.short _ :: _, m => m

/-- The delete rebuild over the byte-level file view (server.c 232-237):
whole records with a different key are copied, a short read ends the copy
loop; the trailing fragment is consumed and dropped without any report. -/
def scan_delete (i : Int) : List ReadChunk → List Trainer × Bool
  | [] => ([], false)
  | ReadChunk.full t :: rest =>
    let r := scan_delete i rest
    if t.id = i then (r.1, true) else (t :: r.1, r.2)
  | ReadChunk.short _ :: _ => ([], false)

/-- A one-entry Reference Store used by concrete instances. -/
def sample_pokedex : List Pokemon :=
  [⟨1, "Bulbasaur", "Grass", "Poison"⟩]

/-- A 50-character trainer name: one character longer than the 49 bytes the
strncpy into the 50-byte name field can keep. -/
def long_name : String :=
  "TrainerTrainerTrainerTrainerTrainerTrainerTrainerX"

/-- A single 1024-character log entry: together with its stored newline it
exceeds the LOG_LINE_BUF - 1 characters one fgets call delivers, so the
line-counting loop of read_last_n_lines sees it as two units. -/
def long_log_line : String :=
  (List.replicate 1024 'a').asString

/- ======================== Helper lemmas ======================== -/

/-- The key-max fold never drops below its accumulator. -/
theorem le_foldl_max (l : List Trainer) :
    ∀ m : Int, m ≤ l.foldl (fun m t => if t.id > m then t.id else m) m := by
  induction l with
  | nil => intro m; exact le_refl m
  | cons t rest ih =>
    intro m
    refine le_trans ?_ (ih (if t.id > m then t.id else m))
    split <;> omega

/-- Every key in the store is bounded by the key-max fold. -/
theorem id_le_foldl_max (l : List Trainer) :
    ∀ (m : Int) (t : Trainer), t ∈ l →
      t.id ≤ l.foldl (fun m u => if u.id > m then u.id else m) m := by
  induction l with
  | nil => intro _ _ h; cases h
  | cons u rest ih =>
    intro m t ht
    rcases List.mem_cons.mp ht with h | h
    · subst h
      refine le_trans ?_ (le_foldl_max rest (if t.id > m then t.id else m))
      split <;> omega
    · exact ih _ t h

/-- Every key in the store is bounded by the key-max scan result. -/
theorem id_le_max_trainer_id (db : List Trainer) (t : Trainer) (h : t ∈ db) :
    t.id ≤ max_trainer_id db :=
  id_le_foldl_max db 0 t h

/-- A record appended with a key absent from the store is found by the
find-by-key scan. -/
theorem get_trainer_by_id_append_fresh (db : List Trainer) (x : Trainer)
    (h : ∀ u ∈ db, u.id ≠ x.id) :
    get_trainer_by_id (db ++ [x]) x.id = some x := by
  induction db with
  | nil => simp [get_trainer_by_id]
  | cons t rest ih =>
    simp only [List.cons_append, get_trainer_by_id]
    rw [if_neg (h t (List.mem_cons_self t rest))]
    exact ih (fun u hu => h u (List.mem_cons_of_mem t hu))

/-- A submitted reference key missing from the Reference Store makes the
validation fail. -/
theorem validate_eq_false_of_missing (pokedex : List Pokemon) (ids : List Int)
    (h : ∃ i ∈ ids, get_pokemon_by_id pokedex i = none) :
    validate_pokemon_ids pokedex ids = false := by
  rcases h with ⟨i, hi, hnone⟩
  cases hall : validate_pokemon_ids pokedex ids with
  | false => rfl
  | true =>
    have := List.all_eq_true.mp hall i hi
    rw [hnone] at this
    simp at this

/-- The delete rebuild keeps an in-order selection of the records. -/
theorem delete_rebuild_sublist (i : Int) (db : List Trainer) :
    List.Sublist (delete_rebuild i db).1 db := by
  induction db with
  | nil => simp [delete_rebuild]
  | cons t rest ih =>
    simp only [delete_rebuild]
    split
    · exact List.Sublist.cons t ih
    · exact List.Sublist.cons₂ t ih

/-- The rewrite scan preserves the key sequence, and every record it leaves
behind either was already in the store or carries the submitted count. -/
theorem rewrite_first_ids_and_mem (i : Int) (ids : List Int) :
    ∀ db db2 : List Trainer, rewrite_first i ids db = some db2 →
      db2.map Trainer.id = db.map Trainer.id ∧
      ∀ u ∈ db2, u ∈ db ∨ u.count = ids.length := by
  intro db
  induction db with
  | nil => intro db2 h; simp [rewrite_first] at h
  | cons t rest ih =>
    intro db2 h
    by_cases ht : t.id = i
    · rw [rewrite_first, if_pos ht] at h
      rcases Option.some.inj h with rfl
      refine ⟨by simp, ?_⟩
      intro u hu
      rcases List.mem_cons.mp hu with rfl | hu
      · exact Or.inr rfl
      · exact Or.inl (List.mem_cons_of_mem t hu)
    · rw [rewrite_first, if_neg ht] at h
      cases hr : rewrite_first i ids rest with
      | none => rw [hr] at h; simp at h
      | some l2 =>
        rw [hr] at h
        rw [Option.map_some'] at h
        rcases Option.some.inj h with rfl
        obtain ⟨hmap, hmem⟩ := ih l2 hr
        refine ⟨by simp [hmap], ?_⟩
        intro u hu
        rcases List.mem_cons.mp hu with rfl | hu
        · exact Or.inl (List.mem_cons_self u rest)
        · rcases hmem u hu with h' | h'
          · exact Or.inl (List.mem_cons_of_mem t h')
          · exact Or.inr h'

/-- Positional description of the rewrite scan: some position holds a record
with the requested key; afterwards that position holds the same record with
only its reference slots and count replaced, and every other position is
untouched. -/
theorem rewrite_first_frame (i : Int) (ids : List Int) :
    ∀ db db2 : List Trainer, rewrite_first i ids db = some db2 →
      ∃ (k : Nat) (told : Trainer),
        db[k]? = some told ∧ told.id = i ∧
        db2[k]? = some { told with
          pokemon_ids := ids ++ told.pokemon_ids.drop ids.length,
          count := ids.length } ∧
        ∀ j, j ≠ k → db2[j]? = db[j]? := by
  intro db
  induction db with
  | nil => intro db2 h; simp [rewrite_first] at h
  | cons t rest ih =>
    intro db2 h
    by_cases ht : t.id = i
    · rw [rewrite_first, if_pos ht] at h
      rcases Option.some.inj h with rfl
      refine ⟨0, t, by simp, ht, by simp, ?_⟩
      intro j hj
      cases j with
      | zero => exact absurd rfl hj
      | succ j' => simp [List.getElem?_cons_succ]
    · rw [rewrite_first, if_neg ht] at h
      cases hr : rewrite_first i ids rest with
      | none => rw [hr] at h; simp at h
      | some l2 =>
        rw [hr] at h
        rw [Option.map_some'] at h
        rcases Option.some.inj h with rfl
        obtain ⟨k, told, h1, h2, h3, h4⟩ := ih l2 hr
        refine ⟨k + 1, told, by simpa [List.getElem?_cons_succ] using h1, h2,
          by simpa [List.getElem?_cons_succ] using h3, ?_⟩
        intro j hj
        cases j with
        | zero => simp
        | succ j' =>
          simp only [List.getElem?_cons_succ]
          exact h4 j' (fun hk => hj (by rw [hk]))

/-- A nonempty byte sequence that fits one fgets call is delivered as a
single piece. -/
theorem fgets_split_single (cs : List Char) (h0 : cs ≠ [])
    (hlen : cs.length ≤ LOG_LINE_BUF - 1) :
    fgets_split cs = [cs] := by
  cases cs with
  | nil => exact absurd rfl h0
  | cons c cs2 =>
    show fgets_split_go (c :: cs2).length (c :: cs2) = [c :: cs2]
    rw [List.length_cons]
    simp only [fgets_split_go]
    rw [List.take_of_length_le hlen, List.drop_eq_nil_of_le hlen]
    simp [fgets_split_go]

/-- When every stored entry fits one fgets call, the delivered units are
exactly the entries, each with its trailing newline. -/
theorem fgets_units_of_short (log : List String)
    (h2 : ∀ l ∈ log, l.length + 1 ≤ LOG_LINE_BUF - 1) :
    fgets_units log = log.map (fun l => l ++ "\n") := by
  induction log with
  | nil => rfl
  | cons l rest ih =>
    have hl := h2 l (List.mem_cons_self l rest)
    have hsplit : fgets_split (l.data ++ ['\n']) = [l.data ++ ['\n']] := by
      apply fgets_split_single
      · simp
      · rw [List.length_append]
        have hdl : l.data.length = l.length := rfl
        simp only [List.length_cons, List.length_nil, hdl]
        omega
    unfold fgets_units
    rw [List.map_cons, List.flatten_cons, hsplit]
    have ih2 : (List.map (fun l => (fgets_split (l.data ++ ['\n'])).map List.asString)
        rest).flatten = rest.map (fun l => l ++ "\n") := ih (fun u hu => h2 u (List.mem_cons_of_mem l hu))
    rw [ih2, List.map_cons]
    rfl

/-- As long as everything fits the remaining capacity, the strncat fold is
plain concatenation. -/
theorem strncat_fold_of_le (outsz : Nat) :
    ∀ (us : List String) (acc : List Char),
      acc.length + ((us.map String.data).flatten).length ≤ outsz - 1 →
      strncat_fold outsz us acc = acc ++ (us.map String.data).flatten := by
  intro us
  induction us with
  | nil => intro acc h; simp [strncat_fold]
  | cons u rest ih =>
    intro acc h
    rw [List.map_cons, List.flatten_cons] at h ⊢
    rw [List.length_append] at h
    have hu : u.data.length ≤ outsz - 1 - acc.length := by omega
    unfold strncat_fold
    rw [List.take_of_length_le hu, ih (acc ++ u.data) (by rw [List.length_append]; omega),
      List.append_assoc]

/-- The flattening fold behind String.join, with an arbitrary accumulator. -/
theorem foldl_append_data (ss : List String) :
    ∀ init : String,
      (ss.foldl (fun r s => r ++ s) init).data = init.data ++ (ss.map String.data).flatten := by
  induction ss with
  | nil => intro init; simp
  | cons s rest ih =>
    intro init
    rw [List.foldl_cons, ih (init ++ s), String.data_append, List.map_cons,
      List.flatten_cons, List.append_assoc]

/-- The characters of a joined list of strings. -/
theorem string_join_data (ss : List String) :
    (String.join ss).data = (ss.map String.data).flatten := by
  rw [String.join, foldl_append_data]
  rfl

/-- The dispatcher continue flag is false exactly when the first token of
the line is the exit verb. -/
theorem dispatch_continue_iff (st : ServerState) (s : String) :
    (dispatch st s).2.2 = true ↔ first_token s ≠ some "exit" := by
  unfold dispatch first_token
  cases h : tokenize s with
  | nil => simp
  | cons a rest =>
    by_cases ha : a = "exit"
    · subst ha; simp
    · simp [ha]

/-- The find-by-key scan over the byte-level file view agrees with the scan
over the whole records, whatever the trailing short read holds. -/
theorem scan_find_eq_get (i : Int) (tl : Fin TRAINER_REC_BYTES) :
    ∀ recs : List Trainer, scan_find i (file_chunks recs tl) = get_trainer_by_id recs i := by
  intro recs
  induction recs with
  | nil => rfl
  | cons t rest ih =>
    simp only [file_chunks, List.map_cons, List.cons_append, scan_find, get_trainer_by_id]
    split
    · rfl
    · simpa [file_chunks] using ih

/-- The key-max scan over the byte-level file view agrees with the fold over
the whole records, whatever the trailing short read holds. -/
theorem scan_max_eq_foldl (tl : Fin TRAINER_REC_BYTES) :
    ∀ (recs : List Trainer) (m : Int),
      scan_max (file_chunks recs tl) m =
        recs.foldl (fun m t => if t.id > m then t.id else m) m := by
  intro recs
  induction recs with
  | nil => intro m; rfl
  | cons t rest ih =>
    intro m
    simp only [file_chunks, List.map_cons, List.cons_append, scan_max, List.foldl_cons]
    simpa [file_chunks] using ih (if t.id > m then t.id else m)

/-- The delete rebuild over the byte-level file view agrees with the rebuild
over the whole records, whatever the trailing short read holds. -/
theorem scan_delete_eq_rebuild (i : Int) (tl : Fin TRAINER_REC_BYTES) :
    ∀ recs : List Trainer, scan_delete i (file_chunks recs tl) = delete_rebuild i recs := by
  intro recs
  induction recs with
  | nil => rfl
  | cons t rest ih =>
    have ih2 : scan_delete i ((List.map ReadChunk.full rest).append [ReadChunk.short tl])
        = delete_rebuild i rest := ih
    simp only [file_chunks, List.map_cons, List.cons_append, scan_delete, delete_rebuild]
    rw [ih2]

/- ======================== Claim theorems ======================== -/

/-- Claim C1 (code bug, evaluated at the failing input).  The client of
send_command consumes lines until the literal sentinel line produced by the
"[END]\n" comparison (client.c 124), but the server only ever transmits
res.message (server.c 518) and never a sentinel: for the listing command
`get trainer` on an empty store the transmission is the single line
"All Trainers:\n" and the client loop never completes, and for an invalid
command the transmission "Invalid command." carries no newline at all, so
the client does not even receive one complete line. -/
theorem server_sends_no_sentinel_line :
    (dispatch ⟨[], [], []⟩ "get trainer").1 = "All Trainers:\n" ∧
    client_recv_displayed (complete_lines (dispatch ⟨[], [], []⟩ "get trainer").1) = none ∧
    (dispatch ⟨[], [], []⟩ "hello").1 = "Invalid command." ∧
    complete_lines (dispatch ⟨[], [], []⟩ "hello").1 = [] := by
  decide

/-- Claim C2 (code bug, evaluated at the failing input).  The else-if chain
of client_thread has no `get pokemon` branch, so the documented command
`get pokemon 25` falls through to the generic invalid-command response in
every server state, with no Reference Store lookup and no descriptive
not-found message. -/
theorem get_pokemon_falls_to_generic_invalid (st : ServerState) :
    dispatch st "get pokemon 25" = ("Invalid command.", st.trainers, true) := by
  have ht : tokenize "get pokemon 25" = ["get", "pokemon", "25"] := by decide
  simp [dispatch, ht, exec_command]

/-- Claim C3 counterexample.  A valid creation request with a 50-character
name succeeds, yet the retrievable record does not carry the submitted
name: strncpy into the 50-byte field kept only 49 characters. -/
theorem post_truncates_name_cex :
    (add_trainer_with_validation sample_pokedex [] long_name [1]).2 = 1 ∧
    (get_trainer_by_id (add_trainer_with_validation sample_pokedex [] long_name [1]).1 1).map
        Trainer.name ≠ some long_name := by
  decide

/-- Claim C3 as amended.  A creation request with between 1 and MAX_POKEMON
reference keys that all validate appends one record whose key is the
key-max scan result plus one - strictly greater than every key already in
the store - and the record is afterwards retrievable by that key with the
submitted reference list and count, and with the submitted name truncated
to the 49 characters the name field can keep. -/
theorem post_assigns_greatest_key (pokedex : List Pokemon) (db : List Trainer)
    (name : String) (ids : List Int)
    (h1 : 0 < ids.length) (h2 : ids.length ≤ MAX_POKEMON)
    (h3 : validate_pokemon_ids pokedex ids = true) :
    ∃ t : Trainer,
      add_trainer_with_validation pokedex db name ids = (db ++ [t], t.id) ∧
      t.id = max_trainer_id db + 1 ∧
      (∀ u ∈ db, u.id < t.id) ∧
      get_trainer_by_id (db ++ [t]) t.id = some t ∧
      t.name = strncpy_name name ∧
      t.pokemon_ids.take t.count = ids ∧
      t.count = ids.length := by
  have hguard : ¬ (ids.length = 0 ∨ ids.length > MAX_POKEMON) := by omega
  refine ⟨⟨max_trainer_id db + 1, strncpy_name name,
      ids ++ List.replicate (MAX_POKEMON - ids.length) 0, ids.length⟩,
    ?_, rfl, ?_, ?_, rfl, ?_, rfl⟩
  · unfold add_trainer_with_validation
    rw [if_neg hguard, h3]
    rfl
  · intro u hu
    have := id_le_max_trainer_id db u hu
    show u.id < max_trainer_id db + 1
    omega
  · apply get_trainer_by_id_append_fresh
    intro u hu
    have := id_le_max_trainer_id db u hu
    show u.id ≠ max_trainer_id db + 1
    omega
  · show (ids ++ List.replicate (MAX_POKEMON - ids.length) 0).take ids.length = ids
    exact List.take_left ids _

/-- Claim C3 witness: a concrete valid creation request on the empty store. -/
theorem post_assigns_greatest_key_witness :
    (0 < ([1] : List Int).length ∧ ([1] : List Int).length ≤ MAX_POKEMON ∧
      validate_pokemon_ids sample_pokedex [1] = true) ∧
    (∃ t : Trainer,
      add_trainer_with_validation sample_pokedex [] "Ash" [1] = ([] ++ [t], t.id) ∧
      t.id = max_trainer_id [] + 1 ∧
      (∀ u ∈ ([] : List Trainer), u.id < t.id) ∧
      get_trainer_by_id ([] ++ [t]) t.id = some t ∧
      t.name = strncpy_name "Ash" ∧
      t.pokemon_ids.take t.count = [1] ∧
      t.count = ([1] : List Int).length) :=
  ⟨by decide, post_assigns_greatest_key sample_pokedex [] "Ash" [1]
    (by decide) (by decide) (by decide)⟩

/-- Claim C4.  A creation or full-replacement update request carrying a
reference key absent from the Reference Store performs no write: the store
returned by the operation is the unchanged input store, and the failure
return value (-1, resp. 0) is reported. -/
theorem absent_ref_no_write (pokedex : List Pokemon) (db : List Trainer)
    (name : String) (i : Int) (ids : List Int)
    (h : ∃ x ∈ ids, get_pokemon_by_id pokedex x = none) :
    add_trainer_with_validation pokedex db name ids = (db, -1) ∧
    update_trainer_with_validation pokedex db i ids = (db, 0) := by
  have hv := validate_eq_false_of_missing pokedex ids h
  constructor
  · unfold add_trainer_with_validation
    split
    · rfl
    · simp [hv]
  · unfold update_trainer_with_validation
    split
    · rfl
    · simp [hv]

/-- Claim C4 witness: reference key 9 does not exist in the empty Reference
Store. -/
theorem absent_ref_no_write_witness :
    (∃ x ∈ ([9] : List Int), get_pokemon_by_id [] x = none) ∧
    (add_trainer_with_validation [] [] "Ash" [9] = ([], -1) ∧
     update_trainer_with_validation [] [] 1 [9] = ([], 0)) :=
  ⟨by decide, absent_ref_no_write [] [] "Ash" 1 [9] (by decide)⟩

/-- Claim C5.  Insert, full-replacement update and delete each preserve the
store invariant: every record keeps a reference count in [1, MAX_POKEMON]
and keys stay unique. -/
theorem ops_preserve_store_invariant (pokedex : List Pokemon) (db : List Trainer)
    (name : String) (i : Int) (ids : List Int)
    (h : store_invariant db) :
    store_invariant (add_trainer_with_validation pokedex db name ids).1 ∧
    store_invariant (update_trainer_with_validation pokedex db i ids).1 ∧
    store_invariant (delete_trainer db i).1 := by
  refine ⟨?_, ?_, ?_⟩
  · unfold add_trainer_with_validation
    split
    · exact h
    · rename_i h1
      split
      · exact h
      · constructor
        · intro u hu
          rcases List.mem_append.mp hu with hu | hu
          · exact h.1 u hu
          · rcases List.mem_singleton.mp hu with rfl
            refine ⟨?_, ?_⟩
            · show 1 ≤ ids.length
              omega
            · show ids.length ≤ MAX_POKEMON
              omega
        · rw [List.map_append, List.nodup_append]
          refine ⟨h.2, List.nodup_singleton _, ?_⟩
          intro a ha hb
          simp only [List.map_cons, List.map_nil, List.mem_singleton] at hb
          rcases List.mem_map.mp ha with ⟨u, hu, rfl⟩
          have hle := id_le_max_trainer_id db u hu
          have hb2 : u.id = max_trainer_id db + 1 := hb
          omega
  · unfold update_trainer_with_validation
    split
    · exact h
    · rename_i h1
      split
      · exact h
      · cases hr : rewrite_first i ids db with
        | none => exact h
        | some db2 =>
          obtain ⟨hmap, hmem⟩ := rewrite_first_ids_and_mem i ids db db2 hr
          constructor
          · intro u hu
            rcases hmem u hu with hu2 | hu2
            · exact h.1 u hu2
            · rw [hu2]
              refine ⟨by omega, by omega⟩
          · show (db2.map Trainer.id).Nodup
            rw [hmap]; exact h.2
  · have hs := delete_rebuild_sublist i db
    constructor
    · intro u hu
      exact h.1 u (hs.subset hu)
    · exact List.Nodup.sublist (hs.map Trainer.id) h.2

/-- Claim C5 witness: a concrete invariant-satisfying store and request. -/
theorem ops_preserve_store_invariant_witness :
    store_invariant [⟨3, "Brock", [1, 0, 0, 0, 0, 0], 1⟩] ∧
    (store_invariant (add_trainer_with_validation sample_pokedex
        [⟨3, "Brock", [1, 0, 0, 0, 0, 0], 1⟩] "Ash" [1]).1 ∧
     store_invariant (update_trainer_with_validation sample_pokedex
        [⟨3, "Brock", [1, 0, 0, 0, 0, 0], 1⟩] 3 [1]).1 ∧
     store_invariant (delete_trainer [⟨3, "Brock", [1, 0, 0, 0, 0, 0], 1⟩] 3).1) :=
  ⟨by decide, ops_preserve_store_invariant sample_pokedex
    [⟨3, "Brock", [1, 0, 0, 0, 0, 0], 1⟩] "Ash" 3 [1] (by decide)⟩

set_option maxRecDepth 8000 in
/-- Claim C6 counterexample.  After a single append of a 1024-character
entry, `get log 1` must return exactly min(1, 1) = 1 entry, the entry
itself; but the fgets line-counting loop of read_last_n_lines sees the
entry as two 1023-byte-bounded units, skips the first, and returns only the
two-character fragment "a\n" - not the most recent entry. -/
theorem log_tail_long_line_cex :
    read_last_n_lines [long_log_line] 1 = some "a\n" ∧
    read_last_n_lines [long_log_line] 1 ≠
      some (String.join ([long_log_line].map (fun l => l ++ "\n"))) := by
  decide

/-- Claim C6 as amended.  For every positive n, when every stored entry
fits one fgets call (entry plus newline at most LOG_LINE_BUF - 1 bytes) and
the selected tail fits the caller's output buffer (at most LOG_OUT_BUF - 1
bytes, newlines included), the log tail returns exactly the min(k, n) most
recent entries - a suffix of the log, in original append order, each with
its newline; without those bounds an overlong entry is counted and
returned as several fragments and an overlong tail is silently cut off. -/
theorem log_tail_min_recent_bounded (log : List String) (n : Nat)
    (h1 : 0 < n)
    (h2 : ∀ l ∈ log, l.length + 1 ≤ LOG_LINE_BUF - 1)
    (h3 : (String.join ((log.drop (log.length - n)).map (fun l => l ++ "\n"))).length
      ≤ LOG_OUT_BUF - 1) :
    (log.drop (log.length - n)).length = min log.length n ∧
    List.IsSuffix (log.drop (log.length - n)) log ∧
    read_last_n_lines log n =
      (if log.length = 0 then none
       else some (String.join ((log.drop (log.length - n)).map (fun l => l ++ "\n")))) := by
  refine ⟨?_, List.drop_suffix _ _, ?_⟩
  · rw [List.length_drop]
    omega
  · have hu := fgets_units_of_short log h2
    unfold read_last_n_lines
    rw [hu, List.length_map]
    by_cases hl : log.length = 0
    · rw [if_pos hl, if_pos hl]
    · rw [if_neg hl, if_neg hl]
      have hskip : (if log.length > n then log.length - n else 0) = log.length - n := by
        by_cases hgt : log.length > n
        · rw [if_pos hgt]
        · rw [if_neg hgt]; omega
      rw [hskip, (List.map_drop (fun l => l ++ "\n") log (log.length - n)).symm]
      have hcap : (0 : Nat) +
          ((((log.drop (log.length - n)).map (fun l => l ++ "\n")).map String.data).flatten).length
            ≤ LOG_OUT_BUF - 1 := by
        have h3' := h3
        rw [show (String.join ((log.drop (log.length - n)).map (fun l => l ++ "\n"))).length
              = ((((log.drop (log.length - n)).map (fun l => l ++ "\n")).map
                  String.data).flatten).length
            from congrArg List.length (string_join_data _)] at h3'
        omega
      rw [strncat_fold_of_le LOG_OUT_BUF _ [] hcap]
      exact congrArg some (String.ext (by rw [string_join_data]; rfl)).symm

/-- Claim C6 witness: three short appends, tail of two, both buffer bounds
satisfied. -/
theorem log_tail_min_recent_bounded_witness :
    (0 < 2 ∧
      (∀ l ∈ (["a", "b", "c"] : List String), l.length + 1 ≤ LOG_LINE_BUF - 1) ∧
      (String.join (((["a", "b", "c"] : List String).drop
          ((["a", "b", "c"] : List String).length - 2)).map (fun l => l ++ "\n"))).length
        ≤ LOG_OUT_BUF - 1) ∧
    (((["a", "b", "c"] : List String).drop ((["a", "b", "c"] : List String).length - 2)).length
        = min (["a", "b", "c"] : List String).length 2 ∧
     List.IsSuffix ((["a", "b", "c"] : List String).drop
        ((["a", "b", "c"] : List String).length - 2)) ["a", "b", "c"] ∧
     read_last_n_lines ["a", "b", "c"] 2 =
       (if (["a", "b", "c"] : List String).length = 0 then none
        else some (String.join (((["a", "b", "c"] : List String).drop
          ((["a", "b", "c"] : List String).length - 2)).map (fun l => l ++ "\n"))))) :=
  ⟨⟨by decide, by decide, by decide⟩,
    log_tail_min_recent_bounded ["a", "b", "c"] 2 (by decide) (by decide) (by decide)⟩

/-- Claim C7 counterexample.  A store holding one whole record followed by a
40-byte trailing fragment: the find-by-key scan answers exactly as on the
clean store - a plain not-found with no error - so the trailing short record
is silently treated as end-of-store, against the claim. -/
theorem short_read_silently_eof_cex :
    scan_find 7 (file_chunks [⟨5, "Misty", [1, 0, 0, 0, 0, 0], 1⟩] ⟨40, by decide⟩) =
      scan_find 7 (file_chunks [⟨5, "Misty", [1, 0, 0, 0, 0, 0], 1⟩] ⟨0, by decide⟩) ∧
    scan_find 7 (file_chunks [⟨5, "Misty", [1, 0, 0, 0, 0, 0], 1⟩] ⟨40, by decide⟩) = none := by
  decide

/-- Claim C7 as amended.  A short trailing read on a fixed-width scan is not
surfaced as an error: the find-by-key scan, the key-max scan and the delete
rebuild each behave on a file with any trailing fragment exactly as on the
file of whole records, returning their ordinary found/not-found, maximum
and rebuilt-copy results. -/
theorem scans_treat_short_read_as_eof (recs : List Trainer)
    (tl : Fin TRAINER_REC_BYTES) (i : Int) (m : Int) :
    scan_find i (file_chunks recs tl) = get_trainer_by_id recs i ∧
    scan_max (file_chunks recs tl) m =
      recs.foldl (fun m t => if t.id > m then t.id else m) m ∧
    scan_delete i (file_chunks recs tl) = delete_rebuild i recs := by
  exact ⟨scan_find_eq_get i tl recs, scan_max_eq_foldl tl recs m,
    scan_delete_eq_rebuild i tl recs⟩

/-- Claim C8 counterexample.  With the loop flag set, a received line and a
FAILED final send, the session still continues: the return value of
send_all at server.c 518 is discarded, so a send failure does not drive the
session to Closing as the claim requires. -/
theorem send_failure_session_continues_cex :
    session_continues true (RecvResult.line "lorem ipsum") ⟨[], [], []⟩ false = true := by
  decide

/-- Claim C8 as amended.  The session loop result is independent of the
send outcome, and the session stays Active exactly when the run flag is
set, the receive produced a line, and the first token of that line is not
`exit` - so receive error, clean close, `exit` and global shutdown end the
session, while a malformed command (and a failed send) never do. -/
theorem session_transition_exact (running : Bool) (rv : RecvResult)
    (st : ServerState) (b1 b2 : Bool) :
    session_continues running rv st b1 = session_continues running rv st b2 ∧
    (session_continues running rv st b1 = true ↔
      running = true ∧ ∃ s, rv = RecvResult.line s ∧ first_token s ≠ some "exit") := by
  constructor
  · rfl
  · cases running with
    | false => simp [session_continues]
    | true =>
      cases rv with
      | closed => simp [session_continues]
      | err => simp [session_continues]
      | line s => simp [session_continues, dispatch_continue_iff]

/-- Claim C10.  A successful full-replacement update leaves every position
other than the matched one untouched, and at the matched position keeps the
record key and name: only the reference slots and the count are replaced. -/
theorem put_updates_only_refs_and_count (pokedex : List Pokemon)
    (db : List Trainer) (i : Int) (ids : List Int)
    (h : (update_trainer_with_validation pokedex db i ids).2 = 1) :
    ∃ (k : Nat) (told : Trainer),
      db[k]? = some told ∧ told.id = i ∧
      (update_trainer_with_validation pokedex db i ids).1[k]? =
        some { told with pokemon_ids := ids ++ told.pokemon_ids.drop ids.length,
                         count := ids.length } ∧
      ∀ j, j ≠ k → (update_trainer_with_validation pokedex db i ids).1[j]? = db[j]? := by
  unfold update_trainer_with_validation at h ⊢
  by_cases h1 : ids.length = 0 ∨ ids.length > MAX_POKEMON
  · rw [if_pos h1] at h; simp at h
  · rw [if_neg h1] at h ⊢
    by_cases hv : (! validate_pokemon_ids pokedex ids) = true
    · rw [if_pos hv] at h; simp at h
    · rw [if_neg hv] at h ⊢
      cases hr : rewrite_first i ids db with
      | none =>
        rw [hr] at h
        have h2 : (0 : Int) = 1 := h
        omega
      | some db2 => exact rewrite_first_frame i ids db db2 hr

/-- Claim C10 witness: a concrete successful update. -/
theorem put_updates_only_refs_and_count_witness :
    (update_trainer_with_validation sample_pokedex
        [⟨3, "Brock", [9, 0, 0, 0, 0, 0], 1⟩] 3 [1]).2 = 1 ∧
    (∃ (k : Nat) (told : Trainer),
      ([⟨3, "Brock", [9, 0, 0, 0, 0, 0], 1⟩] : List Trainer)[k]? = some told ∧
      told.id = 3 ∧
      (update_trainer_with_validation sample_pokedex
          [⟨3, "Brock", [9, 0, 0, 0, 0, 0], 1⟩] 3 [1]).1[k]? =
        some { told with pokemon_ids := [1] ++ told.pokemon_ids.drop ([1] : List Int).length,
                         count := ([1] : List Int).length } ∧
      ∀ j, j ≠ k →
        (update_trainer_with_validation sample_pokedex
            [⟨3, "Brock", [9, 0, 0, 0, 0, 0], 1⟩] 3 [1]).1[j]? =
          ([⟨3, "Brock", [9, 0, 0, 0, 0, 0], 1⟩] : List Trainer)[j]?) :=
  ⟨by decide, put_updates_only_refs_and_count sample_pokedex
    [⟨3, "Brock", [9, 0, 0, 0, 0, 0], 1⟩] 3 [1] (by decide)⟩

end ThreadedServer
